import Mathlib

/-!
Verification of the ddctl response-shape normalization, aggregate extraction,
time-range resolution, query building and credential resolution logic.

JSON values are modelled by an inductive `Json` type; Python dictionaries are
association lists with first-match lookup (Python dicts always have unique
keys, and insertion/update is modelled accordingly).  Attribute accesses that
Python only performs on objects it has not type-checked are modelled in the
`Except` monad, so an `AttributeError` raised by the source corresponds to an
`Except.error` here.  Machine details that are irrelevant to the claims
(datetime field arithmetic, the external `dateutil` parser) are modelled as
explicit parameters or integer instants (seconds).
-/

namespace DDCtl

/-- A JSON value as manipulated by the Python code. -/
inductive Json where
  | null : Json
  | bool : Bool → Json
  | num : Rat → Json
  | str : String → Json
  | arr : List Json → Json
  | obj : List (String × Json) → Json
  deriving Repr, Inhabited

/-- Python truthiness of a JSON value (`None`, `False`, `0`, `""`, `[]`, and
the empty mapping are falsy). -/
def Json.truthy : Json → Bool
  | .null => false
  | .bool b => b
  | .num q => q != 0
  | .str s => s != ""
  | .arr xs => !xs.isEmpty
  | .obj kvs => !kvs.isEmpty

def Json.isObj : Json → Bool
  | .obj _ => true
  | _ => false

def Json.isArr : Json → Bool
  | .arr _ => true
  | _ => false

/-- First-match lookup in an association list (Python dict lookup). -/
def dfind? (d : List (String × Json)) (k : String) : Option Json :=
  match d with
  | [] => none
  | (k', v) :: rest => if k' = k then some v else dfind? rest k

/-- `k in d` for a Python dict. -/
def dHas (d : List (String × Json)) (k : String) : Bool :=
  (dfind? d k).isSome

/-- Python `d.get(k)`: the value, or `None` when the key is absent. -/
def dgetD (d : List (String × Json)) (k : String) : Json :=
  (dfind? d k).getD Json.null

/-- Python `d[k] = v`: overwrite the key's slot in place when it exists, else
append the pair at the end. -/
def dset (d : List (String × Json)) (k : String) (v : Json) : List (String × Json) :=
  match d with
  | [] => [(k, v)]
  | (k', v') :: rest => if k' = k then (k, v) :: rest else (k', v') :: dset rest k v

/-- Python `d.update(e)`. -/
def dUpdate (d e : List (String × Json)) : List (String × Json) :=
  e.foldl (fun acc kv => dset acc kv.1 kv.2) d

/-- Python `x.get(k)` on a value that may not be a dict: raises
`AttributeError` unless `x` is a mapping. -/
def Json.pyGet : Json → String → Except String Json
  | .obj kvs, k => .ok (dgetD kvs k)
  | _, _ => .error "AttributeError"

/-- Python `a or b` (returning `a` when truthy, else `b`). -/
def pyOr (a b : Json) : Json :=
  if a.truthy then a else b

def emptyObj : Json := .obj []

def emptyList : Json := .arr []

/-- The `buckets = attrs.get("buckets") or []; return buckets if
isinstance(buckets, list) else []` snippet, shared by both locations of
`_extract_buckets`. -/
def bucketsStepE (bk : Json) : Except String (List Json) :=
  match pyOr bk emptyList with
  | .arr xs => .ok xs
  | _ => .ok []

/-- `_extract_buckets` (src/ddctl/commands/apm.py, lines 63-77): find the item
list of a response envelope.  When `data` is a mapping the function returns
`data.attributes.buckets` if that is a list and `[]` otherwise; when `data` is
a list it is returned as-is; only when `data` is neither does it fall back to
top-level `attributes.buckets`. -/
def extractBuckets (resp : Json) : Except String (List Json) :=
  match resp with
  | .obj rkvs =>
    match dgetD rkvs "data" with
    | .obj dkvs =>
      match (pyOr (dgetD dkvs "attributes") emptyObj).pyGet "buckets" with
      | .error e => .error e
      | .ok bk => bucketsStepE bk
    | .arr xs => .ok xs
    | _ =>
      match (pyOr (dgetD rkvs "attributes") emptyObj).pyGet "buckets" with
      | .error e => .error e
      | .ok bk => bucketsStepE bk
  | _ => .ok []

/-- What a location "yielding a list" evaluates to in the normalizer: the
list itself when the value is a list, the empty list otherwise. -/
def bucketsOf (j : Json) : List Json :=
  match j with
  | .arr xs => xs
  | _ => []

mutual

/-- Python `repr` of a JSON value (used by `str` on containers).  Faithful for
the scalar values the code ever converts; numbers are rendered through `Rat`,
which matches Python for integers. -/
def pyRepr : Json → String
  | .null => "None"
  | .bool b => if b then "True" else "False"
  | .num q => toString q
  | .str s => "\x27" ++ s ++ "\x27"
  | .arr xs => "[" ++ pyReprL xs ++ "]"
  | .obj kvs => "\x7b" ++ pyReprO kvs ++ "\x7d"

def pyReprL : List Json → String
  | [] => ""
  | [x] => pyRepr x
  | x :: y :: xs => pyRepr x ++ ", " ++ pyReprL (y :: xs)

def pyReprO : List (String × Json) → String
  | [] => ""
  | [(k, v)] => "\x27" ++ k ++ "\x27: " ++ pyRepr v
  | (k, v) :: y :: xs => "\x27" ++ k ++ "\x27: " ++ pyRepr v ++ ", " ++ pyReprO (y :: xs)

end

/-- Python `str()` of a JSON value. -/
def pyStr : Json → String
  | .str s => s
  | j => pyRepr j

/-- Python `s.split(":", 1)`: the part before the first colon and the rest. -/
def splitColonOnce (s : String) : String × String :=
  let k := s.toList.takeWhile (fun c => c ≠ ':')
  let v := (s.toList.dropWhile (fun c => c ≠ ':')).drop 1
  (String.mk k, String.mk v)

/-- Python `s.strip()`: drop whitespace at both ends. -/
def pyStrip (s : String) : String :=
  String.mk ((s.toList.dropWhile Char.isWhitespace).reverse.dropWhile
    Char.isWhitespace).reverse

/-- One iteration of the element loop of `_coerce_attrs_map`
(src/ddctl/commands/apm.py, lines 35-48). -/
def coerceStep (result : List (String × Json)) (el : Json) : List (String × Json) :=
  match el with
  | .obj kvs =>
    if dHas kvs "key" && dHas kvs "value" then
      dset result (pyStr (dgetD kvs "key")) (dgetD kvs "value")
    else
      kvs.foldl (fun r kv => if dHas r kv.1 then r else dset r kv.1 kv.2) result
  | .str s =>
    if s.toList.contains ':' then
      let p := splitColonOnce s
      dset result (pyStrip p.1) (.str (pyStrip p.2))
    else result
  | _ => result

/-- `_coerce_attrs_map` (src/ddctl/commands/apm.py, lines 26-49): normalize a
mapping / list-of-pairs / list-of-`"k:v"`-strings attribute source to a dict. -/
def coerceAttrsMap (j : Json) : List (String × Json) :=
  match j with
  | .obj kvs => kvs
  | .arr els => els.foldl coerceStep []
  | _ => []

/-- The `nested` map built by `_render_spans_table`
(src/ddctl/commands/apm.py, lines 110-113): update with the coerced
`attributes`, then `custom`, then `tags` source, in that order. -/
def coalesceNested (attrs : List (String × Json)) : List (String × Json) :=
  let n1 := dUpdate [] (coerceAttrsMap (dgetD attrs "attributes"))
  let n2 := dUpdate n1 (coerceAttrsMap (dgetD attrs "custom"))
  dUpdate n2 (coerceAttrsMap (dgetD attrs "tags"))

/-- The `out` dict built from a `computes` list: `out[f"c{idx}"] = entry.get("value")`
for every entry that is a mapping containing `"value"`
(src/ddctl/commands/service.py, lines 52-55 and 66-69). -/
def computesAux (i : Nat) (entries : List Json) : List (String × Json) :=
  match entries with
  | [] => []
  | e :: rest =>
    match e with
    | .obj kvs =>
      if dHas kvs "value" then ("c" ++ toString i, dgetD kvs "value") :: computesAux (i + 1) rest
      else computesAux (i + 1) rest
    | _ => computesAux (i + 1) rest

/-- The `computes` sub-rule applied to a bucket reference
(src/ddctl/commands/service.py, lines 50-57): `some` when it produced a
non-empty map, `none` when control falls through. -/
def tryComputes (ref : Json) : Except String (Option Json) :=
  match ref.pyGet "computes" with
  | .error e => .error e
  | .ok (.arr entries) =>
    if entries.isEmpty then .ok none
    else if (computesAux 0 entries).isEmpty then .ok none
    else .ok (some (.obj (computesAux 0 entries)))
  | .ok _ => .ok none

/-- The two sub-rules applied to the first bucket's reference object
(src/ddctl/commands/service.py, lines 47-57). -/
def bucketCompute (ref : Json) : Except String (Option Json) :=
  match ref.pyGet "compute" with
  | .error e => .error e
  | .ok c =>
    match pyOr c emptyObj with
    | .obj ckvs =>
      if dHas ckvs "c0" || dHas ckvs "c1" || dHas ckvs "c2" then .ok (some (.obj ckvs))
      else tryComputes ref
    | _ => tryComputes ref

/-- The `computes` sub-rule of the fallback path
(src/ddctl/commands/service.py, lines 64-71). -/
def fallbackComputes (akvs : List (String × Json)) : Option Json :=
  match dgetD akvs "computes" with
  | .arr entries =>
    if entries.isEmpty then none
    else
      let out := computesAux 0 entries
      if out.isEmpty then none else some (.obj out)
  | _ => none

/-- The fallback applied to `response.data.attributes` or `response.attributes`
(src/ddctl/commands/service.py, lines 58-71). -/
def fallbackCompute (attrs : Json) : Option Json :=
  match attrs with
  | .obj akvs =>
    match pyOr (dgetD akvs "compute") emptyObj with
    | .obj ckvs => if ckvs.isEmpty then fallbackComputes akvs else some (.obj ckvs)
    | _ => fallbackComputes akvs
  | _ => none

/-- The fallback section of `_safe_get_compute_values`
(src/ddctl/commands/service.py, lines 58-72), reached when the bucket path
produced nothing: totals directly under `data.attributes` or `attributes`. -/
def sgcFallback (rkvs : List (String × Json)) : Json :=
  let attrs : Json :=
    match dgetD rkvs "data" with
    | .obj dkvs => dgetD dkvs "attributes"
    | _ => pyOr (dgetD rkvs "attributes") emptyObj
  match fallbackCompute attrs with
  | some m => m
  | none => emptyObj

/-- `_safe_get_compute_values` (src/ddctl/commands/service.py, lines 33-72):
extract compute results from an aggregate response.  An `Except.error` marks a
Python `AttributeError` raised by an attribute access on a non-mapping. -/
def safeGetComputeValues (resp : Json) : Except String Json :=
  match resp with
  | .obj rkvs =>
    match extractBuckets resp with
    | .error e => .error e
    | .ok (b0 :: _) =>
      match (pyOr b0 emptyObj).pyGet "attributes" with
      | .error e => .error e
      | .ok a =>
        match bucketCompute (pyOr a (pyOr b0 emptyObj)) with
        | .error e => .error e
        | .ok (some m) => .ok m
        | .ok none => .ok (sgcFallback rkvs)
    | .ok [] => .ok (sgcFallback rkvs)
  | _ => .ok emptyObj

/-- `_convert_duration_to_ms` (src/ddctl/commands/service.py, lines 75-93):
magnitude heuristic normalizing a raw duration to milliseconds. -/
def convertDurationToMs (v : Rat) : Rat :=
  if v > 10000000 then v / 1000000
  else if v > 10000 then v / 1000
  else if v ≤ 10 then v * 1000
  else v

/-- Left-biased choice on optional values, for stating merge precedence. -/
def optOr (a b : Option Json) : Option Json :=
  match a with
  | some v => some v
  | none => b

/-- `unit` dispatch of `parse_time` (src/ddctl/utils_time.py, lines 31-38),
in seconds: `s` seconds, `m` minutes, `h` hours, anything else days (the
regex restricts the argument to `s`/`m`/`h`/`d`). -/
def unitSecs : Char → Int
  | 's' => 1
  | 'm' => 60
  | 'h' => 3600
  | _ => 86400

def isUnitChar (c : Char) : Bool :=
  c == 's' || c == 'm' || c == 'h' || c == 'd'

/-- Decimal value of a digit string (Python `int(...)` on the regex group). -/
def digitsVal (cs : List Char) : Nat :=
  cs.foldl (fun a c => a * 10 + (c.toNat - 48)) 0

/-- The regex `^-(\d+)([smhd])$` of `utils_time.py` (line 9): a leading `-`,
one or more digits, then a single unit character. -/
def matchRel (s : List Char) : Option (Nat × Char) :=
  match s with
  | '-' :: rest =>
    let digits := rest.takeWhile Char.isDigit
    let tail := rest.dropWhile Char.isDigit
    match tail with
    | [u] => if isUnitChar u && !digits.isEmpty then some (digitsVal digits, u) else none
    | _ => none
  | _ => none

/-- The result of the external `dateutil` parser, viewed as an instant: the
wall-clock fields read as seconds-from-epoch-if-UTC, plus the explicit UTC
offset (in seconds) when the string carried one. -/
structure AbsDT where
  naiveSecs : Int
  offset : Option Int
  deriving Repr, DecidableEq

/-- Lines 42-44 of `utils_time.py`: a naive datetime gets
`replace(tzinfo=timezone.utc)` (fields read as UTC), an aware one gets
`astimezone(timezone.utc)` (subtract its offset). -/
def absToUtc (d : AbsDT) : Int :=
  match d.offset with
  | none => d.naiveSecs
  | some o => d.naiveSecs - o

def lowerChars (s : List Char) : List Char :=
  s.map Char.toLower

def nowChars : List Char := ['n', 'o', 'w']

/-- The `'now-15m' -> '-15m'` rewrite of `parse_time`
(src/ddctl/utils_time.py, lines 24-26). -/
def rewriteNow (lower : List Char) : List Char :=
  if (nowChars ++ ['-']).isPrefixOf lower then '-' :: lower.drop 4 else lower

/-- `parse_time` (src/ddctl/utils_time.py, lines 12-44).  Strings are lists of
characters; instants are integers (seconds); the external `dateutil` parser is
a parameter returning `none` when it would raise.  The resulting datetime is
identified with its UTC instant. -/
def parseTime (dateutil : List Char → Option AbsDT) (expr : List Char)
    (reference : Int) : Except String Int :=
  let lower := lowerChars expr
  if lower = nowChars then .ok reference
  else
    match matchRel (rewriteNow lower) with
    | some nu => .ok (reference - (nu.1 : Int) * unitSecs nu.2)
    | none =>
      match dateutil expr with
      | some d => .ok (absToUtc d)
      | none => .error "InvalidTimeExpression"

/-- Truthiness of an optional string (a Python `Optional[str]`). -/
def optTruthy : Option String → Bool
  | none => false
  | some s => s != ""

/-- Python `" ".join`. -/
def joinSpace : List String → String
  | [] => ""
  | [t] => t
  | t :: u :: rest => t ++ " " ++ joinSpace (u :: rest)

/-- `_build_query` (src/ddctl/commands/apm.py, lines 52-60): terms
`service:<service>`, `env:<env>`, then the extra text, space-joined, `*` when
none is present. -/
def buildQuery (service extra env : Option String) : String :=
  let terms :=
    (if optTruthy service then ["service:" ++ service.getD ""] else [])
      ++ (if optTruthy env then ["env:" ++ env.getD ""] else [])
      ++ (if optTruthy extra then [extra.getD ""] else [])
  if terms.isEmpty then "*" else joinSpace terms

def errorFilterClause : String := "(status:error OR @error.message:* OR @error.type:*)"

/-- `_error_query` (src/ddctl/commands/apm.py, lines 330-336). -/
def errorQuery (service extra env : Option String) : String :=
  let base := buildQuery service extra env
  if base = "*" then errorFilterClause else base ++ " " ++ errorFilterClause

/-- `_build_query` of the logs command (src/ddctl/commands/logs.py,
lines 19-27): no `env` term. -/
def buildQueryLogs (service extra : Option String) : String :=
  let parts :=
    (if optTruthy service then ["service:" ++ service.getD ""] else [])
      ++ (if optTruthy extra then [extra.getD ""] else [])
  if parts.isEmpty then "*" else joinSpace parts

/-- An HTTP call issued through the transport, with the request content the
commands put into it. -/
structure Request where
  method : String
  path : String
  fromT : Int
  toT : Int
  query : String
  limit : Int
  deriving Repr, DecidableEq

inductive CmdError where
  | invalidTime : CmdError
  | invalidRange : CmdError
  deriving Repr, DecidableEq

/-- `query_logs` (src/ddctl/commands/logs.py, lines 37-93) up to the transport
call: the pair is the list of HTTP calls actually issued and the outcome.
Time parsing and the range check happen before the request is built. -/
def queryLogsCmd (transport : Request → Json) (dateutil : List Char → Option AbsDT)
    (fromE toE : List Char) (service query : Option String) (limit : Int)
    (reference : Int) : List Request × Except CmdError Unit :=
  match parseTime dateutil fromE reference with
  | .error _ => ([], .error .invalidTime)
  | .ok dtFrom =>
    match parseTime dateutil toE reference with
    | .error _ => ([], .error .invalidTime)
    | .ok dtTo =>
      if dtTo < dtFrom then ([], .error .invalidRange)
      else
        let req : Request :=
          ⟨"POST", "/api/v2/logs/events/search", dtFrom, dtTo,
            buildQueryLogs service query, limit⟩
        let _ := transport req
        ([req], .ok ())

/-- `spans_list` (src/ddctl/commands/apm.py, lines 239-268) up to the
transport call. -/
def spansListCmd (transport : Request → Json) (dateutil : List Char → Option AbsDT)
    (fromE toE : List Char) (service env query : Option String) (limit : Int)
    (reference : Int) : List Request × Except CmdError Unit :=
  match parseTime dateutil fromE reference with
  | .error _ => ([], .error .invalidTime)
  | .ok dtFrom =>
    match parseTime dateutil toE reference with
    | .error _ => ([], .error .invalidTime)
    | .ok dtTo =>
      if dtTo < dtFrom then ([], .error .invalidRange)
      else
        let req : Request :=
          ⟨"GET", "/api/v2/spans/events", dtFrom, dtTo,
            buildQuery service query env, limit⟩
        let _ := transport req
        ([req], .ok ())

/-- The three environment variables read by `resolve_context`
(src/ddctl/config.py, lines 35-37); `none` is an unset variable. -/
structure EnvVars where
  ddSite : Option String
  ddApiKey : Option String
  ddAppKey : Option String
  deriving Repr, DecidableEq

/-- A named context of the YAML configuration file (its `site`, `api_key`,
`app_key` entries; `none` is an absent entry). -/
structure YamlContext where
  site : Option String
  api_key : Option String
  app_key : Option String
  deriving Repr, DecidableEq

def ctxLookup (ctxs : List (String × YamlContext)) (name : String) :
    Option YamlContext :=
  match ctxs with
  | [] => none
  | (k, c) :: rest => if k = name then some c else ctxLookup rest name

/-- Site resolution inside the environment-priority branch of
`resolve_context` (src/ddctl/config.py, lines 41-51): the env site when set,
else the named YAML context's site, else empty. -/
def envSite (env : EnvVars) (contexts : Option (List (String × YamlContext)))
    (contextName : Option String) : String :=
  let site0 := if optTruthy env.ddSite then env.ddSite.getD "" else ""
  if site0 = "" then
    match contextName, contexts with
    | some n, some ctxs =>
      if n != "" then
        match ctxLookup ctxs n with
        | some c => if optTruthy c.site then c.site.getD "" else ""
        | none => ""
      else ""
    | _, _ => ""
  else site0

/-- Does any of the three credential environment variables hold a non-empty
value (src/ddctl/config.py, line 39)? -/
def anyEnvSet (e : EnvVars) : Bool :=
  optTruthy e.ddSite || optTruthy e.ddApiKey || optTruthy e.ddAppKey

/-- The external parser used in concrete time-resolver witnesses: accepts only
the string `2024`, as an aware datetime with a +01:00 offset. -/
def dtP : List Char → Option AbsDT :=
  fun cs => if cs = ['2', '0', '2', '4'] then some ⟨1704067200, some 3600⟩ else none

/-- `resolve_context` (src/ddctl/config.py, lines 26-79).  `contexts` is the
`contexts` mapping of the loaded YAML file (`none` when absent or not a
mapping); contexts themselves are modelled as well-formed mappings. -/
def resolveContext (env : EnvVars) (contexts : Option (List (String × YamlContext)))
    (contextName : Option String) : Except String (String × Option String × Option String) :=
  if optTruthy env.ddSite || optTruthy env.ddApiKey || optTruthy env.ddAppKey then
    if envSite env contexts contextName = "" then .error "Could not resolve site"
    else .ok (envSite env contexts contextName, env.ddApiKey, env.ddAppKey)
  else
    match contexts with
    | none => .error "No credentials in env and no contexts in YAML"
    | some ctxs =>
      if ctxs.isEmpty then .error "No credentials in env and no contexts in YAML"
      else
        let selected := if optTruthy contextName then contextName.getD "" else "prd"
        match ctxLookup ctxs selected with
        | none => .error "Context not found"
        | some c =>
          let site := if optTruthy c.site then c.site.getD "" else ""
          if site = "" then .error "Context missing site"
          else .ok (site, c.api_key, c.app_key)

theorem toLower_of_isDigit (c : Char) (h : c.isDigit = true) : c.toLower = c := by
  simp only [Char.isDigit, Bool.and_eq_true, decide_eq_true_eq] at h
  have h57 : c.val.toNat ≤ 57 := UInt32.toNat_le_of_le (by norm_num [UInt32.size]) h.2
  have hnat : c.toNat = c.val.toNat := rfl
  unfold Char.toLower
  rw [if_neg]
  intro hc
  rw [hnat] at hc
  omega

theorem lowerChars_relative (ds : List Char) (u : Char)
    (hds : ∀ c ∈ ds, c.isDigit = true) (hu : u.toLower = u) :
    lowerChars ('-' :: ds ++ [u]) = '-' :: ds ++ [u] := by
  have hmap : ds.map Char.toLower = ds := by
    induction ds with
    | nil => rfl
    | cons c cs ih =>
      have hc := toLower_of_isDigit c (hds c (by simp))
      simp only [List.map_cons, hc, List.cons.injEq, true_and]
      exact ih (fun x hx => hds x (by simp [hx]))
  simp [lowerChars, hmap, hu]

theorem takeWhile_digits (ds : List Char) (u : Char)
    (hds : ∀ c ∈ ds, c.isDigit = true) (hu : u.isDigit = false) :
    (ds ++ [u]).takeWhile Char.isDigit = ds
    ∧ (ds ++ [u]).dropWhile Char.isDigit = [u] := by
  induction ds with
  | nil => simp [List.takeWhile, List.dropWhile, hu]
  | cons c cs ih =>
    have hc : c.isDigit = true := hds c (by simp)
    have h := ih (fun x hx => hds x (by simp [hx]))
    simp [List.takeWhile_cons, List.dropWhile_cons, hc, h.1, h.2]

theorem matchRel_relative (ds : List Char) (u : Char) (hne : ds ≠ [])
    (hds : ∀ c ∈ ds, c.isDigit = true) (hu : isUnitChar u = true)
    (hud : u.isDigit = false) :
    matchRel ('-' :: ds ++ [u]) = some (digitsVal ds, u) := by
  have h := takeWhile_digits ds u hds hud
  simp [matchRel, h.1, h.2, hu, hne]

/-- C3: for every count written as a non-empty digit string, every unit in
`s`/`m`/`h`/`d` and every reference instant, the resolver subtracts the
corresponding duration (`s` seconds, `m` minutes, `h` hours, `d` days);
`resolve("now", R) = R` and `resolve("now-1h", R) = R - 1 hour`. -/
theorem relative_time_resolution (p : List Char → Option AbsDT) (r : Int)
    (ds : List Char) (u : Char) (hne : ds ≠ [])
    (hds : ∀ c ∈ ds, c.isDigit = true)
    (hu : u ∈ (['s', 'm', 'h', 'd'] : List Char)) :
    parseTime p ('-' :: ds ++ [u]) r = .ok (r - (digitsVal ds : Int) * unitSecs u)
    ∧ parseTime p ['n', 'o', 'w'] r = .ok r
    ∧ parseTime p ['n', 'o', 'w', '-', '1', 'h'] r = .ok (r - 3600)
    ∧ unitSecs 's' = 1 ∧ unitSecs 'm' = 60 ∧ unitSecs 'h' = 3600
    ∧ unitSecs 'd' = 86400 := by
  refine ⟨?_, ?_, ?_, rfl, rfl, rfl, rfl⟩
  · have hlow : u.toLower = u := by
      fin_cases hu <;> decide
    have hud : u.isDigit = false := by
      fin_cases hu <;> decide
    have hunit : isUnitChar u = true := by
      fin_cases hu <;> decide
    have hl := lowerChars_relative ds u hds hlow
    have hm := matchRel_relative ds u hne hds hunit hud
    unfold parseTime
    rw [hl]
    rw [if_neg (by simp [nowChars])]
    have hrw : rewriteNow ('-' :: ds ++ [u]) = '-' :: ds ++ [u] := by
      unfold rewriteNow
      rw [if_neg]
      simp [nowChars, List.isPrefixOf]
    rw [hrw, hm]
  · rfl
  · have : parseTime p ['n', 'o', 'w', '-', '1', 'h'] r = .ok (r - 1 * 3600) := rfl
    rw [this]
    norm_num

/-- Closed witness for `relative_time_resolution` at `-15m` with reference 0. -/
theorem relative_time_resolution_witness :
    parseTime (fun _ => none) ['-', '1', '5', 'm'] 0 = .ok (0 - (15 : Int) * 60)
    ∧ parseTime (fun _ => none) ['n', 'o', 'w'] 0 = .ok 0 := by
  have h := relative_time_resolution (fun _ => none) 0 ['1', '5'] 'm'
    (by decide) (by decide) (by decide)
  exact ⟨h.1, h.2.1⟩

/-- C4: for an expression that matches neither `now` nor the relative form,
the resolver's value does not depend on the reference instant, equals the
external parse converted to UTC, and a parse without explicit offset is read
as already being UTC. -/
theorem absolute_time_resolution (p : List Char → Option AbsDT)
    (expr : List Char) (r1 r2 : Int)
    (h1 : lowerChars expr ≠ nowChars)
    (h2 : matchRel (rewriteNow (lowerChars expr)) = none) :
    parseTime p expr r1 = parseTime p expr r2
    ∧ (∀ d, p expr = some d → parseTime p expr r1 = .ok (absToUtc d))
    ∧ (∀ d o, p expr = some d → d.offset = some o → absToUtc d = d.naiveSecs - o)
    ∧ (∀ d, p expr = some d → d.offset = none → absToUtc d = d.naiveSecs) := by
  unfold parseTime
  rw [if_neg h1, if_neg h1, h2]
  refine ⟨rfl, ?_, ?_, ?_⟩
  · intro d hd
    rw [hd]
  · intro d o _ ho
    simp [absToUtc, ho]
  · intro d hd ho
    simp [absToUtc, ho]

/-- Closed witness for `absolute_time_resolution`: `2024` (aware, +01:00)
resolves independently of the reference and to the UTC instant. -/
theorem absolute_time_resolution_witness :
    parseTime dtP ['2', '0', '2', '4'] 5 = parseTime dtP ['2', '0', '2', '4'] 99
    ∧ parseTime dtP ['2', '0', '2', '4'] 5 = .ok 1704063600 := by
  have h := absolute_time_resolution dtP ['2', '0', '2', '4'] 5 99 (by decide) (by decide)
  refine ⟨h.1, ?_⟩
  rw [h.2.1 ⟨1704067200, some 3600⟩ rfl]
  norm_num [absToUtc]

/-- C5: the duration heuristic divides by 1e6 above 1e7 (nanoseconds), by 1e3
above 1e4 (microseconds), multiplies by 1e3 at or below 10 (seconds), and
otherwise returns the value unchanged; in particular 15_000_000_000 maps to
15000, 2 to 2000 and 250 to 250. -/
theorem duration_heuristic_spec :
    (∀ v : Rat, v > 10000000 → convertDurationToMs v = v / 1000000)
    ∧ (∀ v : Rat, ¬v > 10000000 → v > 10000 → convertDurationToMs v = v / 1000)
    ∧ (∀ v : Rat, ¬v > 10000000 → ¬v > 10000 → v ≤ 10 → convertDurationToMs v = v * 1000)
    ∧ (∀ v : Rat, ¬v > 10000000 → ¬v > 10000 → ¬v ≤ 10 → convertDurationToMs v = v)
    ∧ convertDurationToMs 15000000000 = 15000
    ∧ convertDurationToMs 2 = 2000
    ∧ convertDurationToMs 250 = 250 := by
  refine ⟨?_, ?_, ?_, ?_, ?_, ?_, ?_⟩
  · intro v h1
    simp [convertDurationToMs, h1]
  · intro v h1 h2
    simp [convertDurationToMs, h1, h2]
  · intro v h1 h2 h3
    simp [convertDurationToMs, h1, h2, h3]
  · intro v h1 h2 h3
    simp [convertDurationToMs, h1, h2, h3]
  · norm_num [convertDurationToMs]
  · norm_num [convertDurationToMs]
  · norm_num [convertDurationToMs]

/-- Closed witness for `duration_heuristic_spec` on all four branches. -/
theorem duration_heuristic_spec_witness :
    convertDurationToMs 15000000000 = 15000000000 / 1000000
    ∧ convertDurationToMs 20000 = 20000 / 1000
    ∧ convertDurationToMs 2 = 2 * 1000
    ∧ convertDurationToMs 250 = 250 := by
  refine ⟨duration_heuristic_spec.1 15000000000 (by norm_num),
    duration_heuristic_spec.2.1 20000 (by norm_num) (by norm_num),
    duration_heuristic_spec.2.2.1 2 (by norm_num) (by norm_num) (by norm_num),
    duration_heuristic_spec.2.2.2.1 250 (by norm_num) (by norm_num) (by norm_num)⟩

/-- C8: for the logs query and the APM spans list commands, when both time
bounds resolve but `to` precedes `from`, the command ends with the
invalid-range error and the transport is never invoked (the issued-call trace
is empty); the resolver itself succeeded on both bounds, the check lives at
the call sites. -/
theorem range_check_aborts (transport : Request → Json)
    (dateutil : List Char → Option AbsDT) (fromE toE : List Char)
    (s q e : Option String) (lim : Int) (r f t : Int)
    (hf : parseTime dateutil fromE r = .ok f)
    (ht : parseTime dateutil toE r = .ok t)
    (hlt : t < f) :
    queryLogsCmd transport dateutil fromE toE s q lim r = ([], .error .invalidRange)
    ∧ spansListCmd transport dateutil fromE toE s e q lim r = ([], .error .invalidRange) := by
  constructor
  · unfold queryLogsCmd
    rw [hf, ht]
    simp [hlt]
  · unfold spansListCmd
    rw [hf, ht]
    simp [hlt]

/-- Closed witness for `range_check_aborts`: `--from now --to -1h`. -/
theorem range_check_aborts_witness :
    queryLogsCmd (fun _ => Json.null) (fun _ => none)
      ['n', 'o', 'w'] ['-', '1', 'h'] none none 50 0 = ([], .error .invalidRange)
    ∧ spansListCmd (fun _ => Json.null) (fun _ => none)
      ['n', 'o', 'w'] ['-', '1', 'h'] none none none 50 0 = ([], .error .invalidRange) :=
  range_check_aborts (fun _ => Json.null) (fun _ => none)
    ['n', 'o', 'w'] ['-', '1', 'h'] none none none 50 0 0 (0 - 1 * 3600)
    rfl rfl (by norm_num)

/-- C9: `buildQuery` space-joins `service:<s>`, `env:<e>`, then the free text
verbatim, in that order, omitting absent components, and yields `*` when all
are absent; `errorQuery` appends the fixed error clause to the base query, or
uses the clause alone when the base is `*`. -/
theorem query_builder_spec :
    (∀ s e x : String, s ≠ "" → e ≠ "" → x ≠ "" →
      buildQuery (some s) (some x) (some e)
        = "service:" ++ s ++ " " ++ ("env:" ++ e ++ " " ++ x))
    ∧ (∀ s e : String, s ≠ "" → e ≠ "" →
      buildQuery (some s) none (some e) = "service:" ++ s ++ " " ++ ("env:" ++ e))
    ∧ (∀ s x : String, s ≠ "" → x ≠ "" →
      buildQuery (some s) (some x) none = "service:" ++ s ++ " " ++ x)
    ∧ (∀ e x : String, e ≠ "" → x ≠ "" →
      buildQuery none (some x) (some e) = "env:" ++ e ++ " " ++ x)
    ∧ (∀ s : String, s ≠ "" → buildQuery (some s) none none = "service:" ++ s)
    ∧ (∀ e : String, e ≠ "" → buildQuery none none (some e) = "env:" ++ e)
    ∧ (∀ x : String, x ≠ "" → buildQuery none (some x) none = x)
    ∧ buildQuery none none none = "*"
    ∧ buildQuery (some "") (some "") (some "") = "*"
    ∧ (∀ s x e, buildQuery s x e = "*" → errorQuery s x e = errorFilterClause)
    ∧ (∀ s x e, buildQuery s x e ≠ "*" →
        errorQuery s x e = buildQuery s x e ++ " " ++ errorFilterClause)
    ∧ errorFilterClause = "(status:error OR @error.message:* OR @error.type:*)" := by
  refine ⟨?_, ?_, ?_, ?_, ?_, ?_, ?_, rfl, rfl, ?_, ?_, rfl⟩
  · intro s e x hs he hx
    simp [buildQuery, optTruthy, joinSpace, hs, he, hx]
  · intro s e hs he
    simp [buildQuery, optTruthy, joinSpace, hs, he]
  · intro s x hs hx
    simp [buildQuery, optTruthy, joinSpace, hs, hx]
  · intro e x he hx
    simp [buildQuery, optTruthy, joinSpace, he, hx]
  · intro s hs
    simp [buildQuery, optTruthy, joinSpace, hs]
  · intro e he
    simp [buildQuery, optTruthy, joinSpace, he]
  · intro x hx
    simp [buildQuery, optTruthy, joinSpace, hx]
  · intro s x e h
    simp [errorQuery, h]
  · intro s x e h
    simp [errorQuery, h]

/-- Closed witness for `query_builder_spec` on the spec's concrete cases. -/
theorem query_builder_spec_witness :
    buildQuery (some "checkout") none (some "prd") = "service:checkout env:prd"
    ∧ errorQuery none none none = errorFilterClause
    ∧ errorQuery (some "checkout") none none = "service:checkout " ++ errorFilterClause := by
  refine ⟨?_, ?_, ?_⟩
  · rw [query_builder_spec.2.1 "checkout" "prd" (by decide) (by decide)]
    rfl
  · exact query_builder_spec.2.2.2.2.2.2.2.2.2.1 none none none rfl
  · rw [query_builder_spec.2.2.2.2.2.2.2.2.2.2.1 (some "checkout") none none (by decide)]
    rfl

/-- C10: whenever some credential environment variable is set, the returned
`api_key`/`app_key` come exclusively from the environment (a YAML-only key is
ignored); the site may fall back to the named YAML context only when `DD_SITE`
itself is unset; when no environment variable is set, all three values come
from the selected YAML context. -/
theorem credential_resolution_spec :
    (∀ env cs name r, anyEnvSet env = true →
      resolveContext env cs name = .ok r →
      r.2.1 = env.ddApiKey ∧ r.2.2 = env.ddAppKey)
    ∧ (∀ env cs name, optTruthy env.ddSite = true →
      resolveContext env cs name = .ok (env.ddSite.getD "", env.ddApiKey, env.ddAppKey))
    ∧ (∀ env ctxs n c, anyEnvSet env = true → optTruthy env.ddSite = false →
      n ≠ "" → ctxLookup ctxs n = some c → optTruthy c.site = true →
      resolveContext env (some ctxs) (some n)
        = .ok (c.site.getD "", env.ddApiKey, env.ddAppKey))
    ∧ (∀ env ctxs name c, anyEnvSet env = false → ctxs ≠ [] →
      ctxLookup ctxs (if optTruthy name then name.getD "" else "prd") = some c →
      optTruthy c.site = true →
      resolveContext env (some ctxs) name = .ok (c.site.getD "", c.api_key, c.app_key)) := by
  refine ⟨?_, ?_, ?_, ?_⟩
  · intro env cs name r hany hok
    rw [anyEnvSet] at hany
    unfold resolveContext at hok
    rw [if_pos hany] at hok
    by_cases hz : envSite env cs name = ""
    · rw [if_pos hz] at hok
      exact absurd hok (by simp)
    · rw [if_neg hz] at hok
      simp only [Except.ok.injEq] at hok
      rw [← hok]
      exact ⟨rfl, rfl⟩
  · intro env cs name hsite
    obtain ⟨s, hs⟩ : ∃ s, env.ddSite = some s := by
      cases h : env.ddSite
      · rw [h] at hsite
        simp [optTruthy] at hsite
      · exact ⟨_, rfl⟩
    have hts : optTruthy (some s) = true := by
      rw [← hs]
      exact hsite
    have hne : s ≠ "" := by
      simpa [optTruthy] using hts
    have hsv : envSite env cs name = s := by
      simp [envSite, hs, hts, hne]
    unfold resolveContext
    rw [if_pos (by simp [hsite])]
    rw [hsv, if_neg hne, hs]
    rfl
  · intro env ctxs n c hany hsite hn hc hcs
    obtain ⟨s, hs⟩ : ∃ s, c.site = some s := by
      cases h : c.site
      · rw [h] at hcs
        simp [optTruthy] at hcs
      · exact ⟨_, rfl⟩
    have hts : optTruthy (some s) = true := by
      rw [← hs]
      exact hcs
    have hne : s ≠ "" := by
      simpa [optTruthy] using hts
    have hsv : envSite env (some ctxs) (some n) = s := by
      simp [envSite, hsite, hn, hc, hs, hts, bne_iff_ne]
    unfold resolveContext
    rw [anyEnvSet] at hany
    rw [if_pos hany]
    rw [hsv, if_neg hne, hs]
    rfl
  · intro env ctxs name c hany hne hc hcs
    unfold resolveContext
    rw [anyEnvSet] at hany
    rw [if_neg (by simp [hany])]
    obtain ⟨s, hs⟩ : ∃ s, c.site = some s := by
      cases h : c.site
      · rw [h] at hcs
        simp [optTruthy] at hcs
      · exact ⟨_, rfl⟩
    have hts : optTruthy (some s) = true := by
      rw [← hs]
      exact hcs
    have hsne : s ≠ "" := by
      simpa [optTruthy] using hts
    simp [hne, hc, hs, hts, hsne, bne_iff_ne]

/-- Closed witness for `credential_resolution_spec`: env-only keys with a
YAML-only `api_key` ignored; site fallback with `DD_SITE` unset; pure YAML
resolution. -/
theorem credential_resolution_spec_witness :
    resolveContext ⟨some "datadoghq.com", none, some "appk"⟩
        (some [("prd", ⟨some "eu", some "yamlkey", none⟩)]) (some "prd")
      = .ok ("datadoghq.com", none, some "appk")
    ∧ resolveContext ⟨none, some "envkey", none⟩
        (some [("prd", ⟨some "eu", some "yamlkey", none⟩)]) (some "prd")
      = .ok ("eu", some "envkey", none)
    ∧ resolveContext ⟨none, none, none⟩
        (some [("prd", ⟨some "eu", some "yamlkey", none⟩)]) none
      = .ok ("eu", some "yamlkey", none) := by
  refine ⟨?_, ?_, ?_⟩
  · exact credential_resolution_spec.2.1 ⟨some "datadoghq.com", none, some "appk"⟩
      (some [("prd", ⟨some "eu", some "yamlkey", none⟩)]) (some "prd") (by decide)
  · exact credential_resolution_spec.2.2.1 ⟨none, some "envkey", none⟩
      [("prd", ⟨some "eu", some "yamlkey", none⟩)] "prd" ⟨some "eu", some "yamlkey", none⟩
      (by decide) (by decide) (by decide) (by decide) (by decide)
  · exact credential_resolution_spec.2.2.2 ⟨none, none, none⟩
      [("prd", ⟨some "eu", some "yamlkey", none⟩)] none ⟨some "eu", some "yamlkey", none⟩
      (by decide) (by decide) (by decide) (by decide)

theorem bucketsStepE_eq (b : Json) : bucketsStepE b = .ok (bucketsOf b) := by
  cases b with
  | null => simp [bucketsStepE, pyOr, Json.truthy, emptyList, bucketsOf]
  | bool v => cases v <;> simp [bucketsStepE, pyOr, Json.truthy, emptyList, bucketsOf]
  | num q =>
    by_cases h : q = 0 <;> simp [bucketsStepE, pyOr, Json.truthy, emptyList, bucketsOf, h]
  | str s =>
    by_cases h : s = "" <;> simp [bucketsStepE, pyOr, Json.truthy, emptyList, bucketsOf, h]
  | arr xs => cases xs <;> simp [bucketsStepE, pyOr, Json.truthy, emptyList, bucketsOf]
  | obj kvs => cases kvs <;> simp [bucketsStepE, pyOr, Json.truthy, emptyList, bucketsOf]

/-- C1 (amended): the normalizer returns `envelope.data` as-is when it is a
list; when `data` is a mapping it returns `data.attributes.buckets` if that is
a list and the empty list otherwise, without consulting later locations; only
when `data` is neither a mapping nor a list does it read top-level
`attributes.buckets`; a non-mapping envelope and the envelopes `{}`,
`{"data": {}}` and `{"data": null}` give the empty list.  The consulted
`attributes` fields are assumed mapping-valued (or absent/falsy). -/
theorem extract_buckets_spec :
    (∀ rkvs xs, dgetD rkvs "data" = .arr xs →
      extractBuckets (.obj rkvs) = .ok xs)
    ∧ (∀ rkvs dkvs akvs, dgetD rkvs "data" = .obj dkvs →
      pyOr (dgetD dkvs "attributes") emptyObj = .obj akvs →
      extractBuckets (.obj rkvs) = .ok (bucketsOf (dgetD akvs "buckets")))
    ∧ (∀ rkvs akvs, (dgetD rkvs "data").isObj = false →
      (dgetD rkvs "data").isArr = false →
      pyOr (dgetD rkvs "attributes") emptyObj = .obj akvs →
      extractBuckets (.obj rkvs) = .ok (bucketsOf (dgetD akvs "buckets")))
    ∧ (∀ j, j.isObj = false → extractBuckets j = .ok [])
    ∧ extractBuckets (Json.obj []) = .ok []
    ∧ extractBuckets (Json.obj [("data", Json.obj [])]) = .ok []
    ∧ extractBuckets (Json.obj [("data", Json.null)]) = .ok [] := by
  refine ⟨?_, ?_, ?_, ?_, rfl, rfl, rfl⟩
  · intro rkvs xs h
    simp [extractBuckets, h]
  · intro rkvs dkvs akvs h1 h2
    have hb : (pyOr (dgetD dkvs "attributes") emptyObj).pyGet "buckets"
        = .ok (dgetD akvs "buckets") := by
      rw [h2]
      rfl
    simp only [extractBuckets, h1, hb]
    exact bucketsStepE_eq (dgetD akvs "buckets")
  · intro rkvs akvs h1 h2 h3
    have hb : (pyOr (dgetD rkvs "attributes") emptyObj).pyGet "buckets"
        = .ok (dgetD akvs "buckets") := by
      rw [h3]
      rfl
    cases hd : dgetD rkvs "data" <;> rw [hd] at h1 h2 <;>
      simp [Json.isObj] at h1 <;> simp [Json.isArr] at h2
    all_goals
      simp only [extractBuckets, hd, hb]
      exact bucketsStepE_eq (dgetD akvs "buckets")
  · intro j h
    cases j <;> simp_all [extractBuckets, Json.isObj]

/-- Closed witness for `extract_buckets_spec`: all three locations and a
non-mapping envelope. -/
theorem extract_buckets_spec_witness :
    extractBuckets (Json.obj [("data", Json.arr [Json.num 1])]) = .ok [Json.num 1]
    ∧ extractBuckets (Json.obj [("data", Json.obj [("attributes",
        Json.obj [("buckets", Json.arr [Json.str "b"])])])]) = .ok [Json.str "b"]
    ∧ extractBuckets (Json.obj [("attributes", Json.obj [("buckets",
        Json.arr [Json.str "t"])])]) = .ok [Json.str "t"]
    ∧ extractBuckets (Json.str "nope") = .ok [] := by
  refine ⟨extract_buckets_spec.1 [("data", Json.arr [Json.num 1])] [Json.num 1] rfl,
    ?_, ?_, extract_buckets_spec.2.2.2.1 (Json.str "nope") rfl⟩
  · rw [extract_buckets_spec.2.1
      [("data", Json.obj [("attributes", Json.obj [("buckets", Json.arr [Json.str "b"])])])]
      [("attributes", Json.obj [("buckets", Json.arr [Json.str "b"])])]
      [("buckets", Json.arr [Json.str "b"])] rfl rfl]
    rfl
  · rw [extract_buckets_spec.2.2.1
      [("attributes", Json.obj [("buckets", Json.arr [Json.str "t"])])]
      [("buckets", Json.arr [Json.str "t"])] rfl rfl rfl]
    rfl

/-- C1 counterexample: with `data` a mapping without buckets and a non-empty
top-level `attributes.buckets` list, the code returns `[]` instead of trying
the later location as the claim states. -/
theorem extract_buckets_no_fallthrough :
    extractBuckets (Json.obj [("data", Json.obj []),
        ("attributes", Json.obj [("buckets", Json.arr [Json.obj []])])]) = .ok []
    ∧ (Except.ok ([] : List Json) : Except String (List Json)) ≠ .ok [Json.obj []] :=
  ⟨rfl, by simp⟩

/-- C6: on the input `{"data": ["x"]}` the buckets list is `["x"]` and the
code evaluates `("x" or {}).get("attributes")`, raising `AttributeError`
instead of returning a mapping. -/
theorem safe_get_compute_raises :
    safeGetComputeValues (Json.obj [("data", Json.arr [Json.str "x"])])
      = .error "AttributeError" := rfl

theorem pyOr_obj (kvs : List (String × Json)) :
    pyOr (Json.obj kvs) emptyObj = Json.obj kvs := by
  cases kvs <;> simp [pyOr, Json.truthy, emptyObj]

theorem computesAux_spec (i : Nat) (ekvss : List (List (String × Json)))
    (h : ∀ kvs ∈ ekvss, dHas kvs "value" = true) :
    computesAux i (ekvss.map Json.obj)
      = (List.enumFrom i ekvss).map
          (fun p => ("c" ++ toString p.1, dgetD p.2 "value")) := by
  induction ekvss generalizing i with
  | nil => rfl
  | cons kvs rest ih =>
    have hk : dHas kvs "value" = true := h kvs (by simp)
    have hr := ih (i + 1) (fun x hx => h x (by simp [hx]))
    simp [computesAux, hk, hr, List.enumFrom]

/-- C2 (amended): taking the first normalized bucket's attributes (or the
bucket itself when its attributes entry is absent or falsy): a `compute`
mapping is returned unchanged when it contains one of the keys `c0`, `c1`,
`c2` (not an arbitrary `c<n>`); otherwise a non-empty `computes` list of
mappings each carrying a `value` key yields the mapping `c<index> -> value`
for each list position. -/
theorem compute_extraction_spec :
    (∀ rkvs b0kvs rest refkvs ckvs,
      extractBuckets (.obj rkvs) = .ok (.obj b0kvs :: rest) →
      pyOr (dgetD b0kvs "attributes") (Json.obj b0kvs) = .obj refkvs →
      dgetD refkvs "compute" = .obj ckvs →
      (dHas ckvs "c0" || dHas ckvs "c1" || dHas ckvs "c2") = true →
      safeGetComputeValues (.obj rkvs) = .ok (.obj ckvs))
    ∧ (∀ rkvs b0kvs rest refkvs ekvss,
      extractBuckets (.obj rkvs) = .ok (.obj b0kvs :: rest) →
      pyOr (dgetD b0kvs "attributes") (Json.obj b0kvs) = .obj refkvs →
      dgetD refkvs "compute" = Json.null →
      dgetD refkvs "computes" = .arr (ekvss.map Json.obj) →
      ekvss ≠ [] →
      (∀ kvs ∈ ekvss, dHas kvs "value" = true) →
      safeGetComputeValues (.obj rkvs)
        = .ok (.obj ((List.enumFrom 0 ekvss).map
            (fun p => ("c" ++ toString p.1, dgetD p.2 "value")))))
    ∧ safeGetComputeValues (Json.obj [("data", Json.obj [("attributes",
        Json.obj [("buckets", Json.arr [Json.obj [("attributes",
          Json.obj [("computes", Json.arr [Json.obj [("value", Json.num 5)],
            Json.obj [("value", Json.num 12.5)]])])]])])])])
      = .ok (Json.obj [("c0", Json.num 5), ("c1", Json.num 12.5)]) := by
  refine ⟨?_, ?_, rfl⟩
  · intro rkvs b0kvs rest refkvs ckvs hB href hcomp hkeys
    have ha : (pyOr (Json.obj b0kvs) emptyObj).pyGet "attributes"
        = .ok (dgetD b0kvs "attributes") := by
      rw [pyOr_obj]
      rfl
    have hbc : bucketCompute (pyOr (dgetD b0kvs "attributes")
        (pyOr (Json.obj b0kvs) emptyObj)) = .ok (some (.obj ckvs)) := by
      rw [pyOr_obj, href]
      have hcg : (Json.obj refkvs).pyGet "compute" = .ok (.obj ckvs) := by
        rw [Json.pyGet, hcomp]
      simp only [bucketCompute, hcg, pyOr_obj, hkeys, if_pos]
    simp only [safeGetComputeValues, hB, ha, hbc]
  · intro rkvs b0kvs rest refkvs ekvss hB href hcomp hcs hne hval
    have ha : (pyOr (Json.obj b0kvs) emptyObj).pyGet "attributes"
        = .ok (dgetD b0kvs "attributes") := by
      rw [pyOr_obj]
      rfl
    have hout := computesAux_spec 0 ekvss hval
    have houtne : (computesAux 0 (ekvss.map Json.obj)).isEmpty = false := by
      rw [hout]
      cases ekvss with
      | nil => exact absurd rfl hne
      | cons a b => simp [List.enumFrom]
    have hentne : (ekvss.map Json.obj).isEmpty = false := by
      cases ekvss with
      | nil => exact absurd rfl hne
      | cons a b => simp
    have htc : tryComputes (Json.obj refkvs)
        = .ok (some (.obj ((List.enumFrom 0 ekvss).map
            (fun p => ("c" ++ toString p.1, dgetD p.2 "value"))))) := by
      have hcg : (Json.obj refkvs).pyGet "computes" = .ok (.arr (ekvss.map Json.obj)) := by
        rw [Json.pyGet, hcs]
      have houtne2 : ((List.enumFrom 0 ekvss).map
          (fun p => ("c" ++ toString p.1, dgetD p.2 "value"))).isEmpty = false := by
        rw [← hout]
        exact houtne
      simp only [tryComputes, hcg, hentne, houtne, houtne2, Bool.false_eq_true,
        if_false, hout]
    have hbc : bucketCompute (pyOr (dgetD b0kvs "attributes")
        (pyOr (Json.obj b0kvs) emptyObj)) = .ok (some (.obj
          ((List.enumFrom 0 ekvss).map
            (fun p => ("c" ++ toString p.1, dgetD p.2 "value"))))) := by
      rw [pyOr_obj, href]
      have hcg : (Json.obj refkvs).pyGet "compute" = .ok Json.null := by
        rw [Json.pyGet, hcomp]
      simp only [bucketCompute, hcg]
      have hpn : pyOr Json.null emptyObj = Json.obj [] := rfl
      rw [hpn]
      simp only [dHas, dfind?, Option.isSome, Bool.or_self, Bool.false_eq_true, if_false]
      exact htc
    simp only [safeGetComputeValues, hB, ha, hbc]

/-- Closed witness for `compute_extraction_spec`: a `compute` mapping with
`c0` returned unchanged, and the `computes`-list shape of the spec. -/
theorem compute_extraction_spec_witness :
    safeGetComputeValues (Json.obj [("data", Json.obj [("attributes",
        Json.obj [("buckets", Json.arr [Json.obj [("attributes",
          Json.obj [("compute", Json.obj [("c0", Json.num 3)])])]])])])])
      = .ok (Json.obj [("c0", Json.num 3)])
    ∧ safeGetComputeValues (Json.obj [("data", Json.obj [("attributes",
        Json.obj [("buckets", Json.arr [Json.obj [("attributes",
          Json.obj [("computes", Json.arr [Json.obj [("value", Json.num 5)],
            Json.obj [("value", Json.num 12.5)]])])]])])])])
      = .ok (Json.obj [("c0", Json.num 5), ("c1", Json.num 12.5)]) := by
  constructor
  · exact compute_extraction_spec.1
      [("data", Json.obj [("attributes", Json.obj [("buckets", Json.arr
        [Json.obj [("attributes", Json.obj [("compute",
          Json.obj [("c0", Json.num 3)])])]])])])]
      [("attributes", Json.obj [("compute", Json.obj [("c0", Json.num 3)])])]
      [] [("compute", Json.obj [("c0", Json.num 3)])] [("c0", Json.num 3)]
      rfl rfl rfl rfl
  · have h := compute_extraction_spec.2.1
      [("data", Json.obj [("attributes", Json.obj [("buckets", Json.arr
        [Json.obj [("attributes", Json.obj [("computes", Json.arr
          [Json.obj [("value", Json.num 5)],
            Json.obj [("value", Json.num 12.5)]])])]])])])]
      [("attributes", Json.obj [("computes", Json.arr [Json.obj [("value", Json.num 5)],
        Json.obj [("value", Json.num 12.5)]])])]
      [] [("computes", Json.arr [Json.obj [("value", Json.num 5)],
        Json.obj [("value", Json.num 12.5)]])]
      [[("value", Json.num 5)], [("value", Json.num 12.5)]]
      rfl rfl rfl rfl (by simp)
      (by
        intro kvs hk
        simp only [List.mem_cons, List.not_mem_nil, or_false] at hk
        rcases hk with rfl | rfl <;> rfl)
    rw [h]
    rfl

/-- C2 counterexample: a first bucket whose `compute` mapping holds only the
key `c3` (which matches `^c[0-9]+$`) is not returned unchanged: the code
checks only `c0`/`c1`/`c2` and falls back to the empty mapping. -/
theorem compute_regex_counterexample :
    safeGetComputeValues (Json.obj [("data", Json.obj [("attributes",
        Json.obj [("buckets", Json.arr [Json.obj [("attributes",
          Json.obj [("compute", Json.obj [("c3", Json.num 7)])])]])])])])
      = .ok emptyObj
    ∧ (Except.ok emptyObj : Except String Json) ≠ .ok (Json.obj [("c3", Json.num 7)]) :=
  ⟨rfl, by simp [emptyObj]⟩

theorem dfind?_not_mem (e : List (String × Json)) (k : String)
    (h : ¬ k ∈ e.map Prod.fst) : dfind? e k = none := by
  induction e with
  | nil => rfl
  | cons kv rest ih =>
    obtain ⟨k0, v0⟩ := kv
    simp only [List.map_cons, List.mem_cons] at h
    push_neg at h
    have hk : ¬ k0 = k := fun he => h.1 he.symm
    simp [dfind?, hk, ih h.2]

theorem dfind?_dset (d : List (String × Json)) (k k' : String) (v : Json) :
    dfind? (dset d k v) k' = if k' = k then some v else dfind? d k' := by
  induction d with
  | nil =>
    by_cases h : k' = k
    · simp [dset, dfind?, h]
    · have h2 : ¬ k = k' := fun he => h he.symm
      simp [dset, dfind?, h, h2]
  | cons kv rest ih =>
    obtain ⟨a, b⟩ := kv
    by_cases ha : a = k
    · subst ha
      by_cases h2 : k' = a
      · subst h2
        simp [dset, dfind?]
      · have h3 : ¬ a = k' := fun he => h2 he.symm
        simp [dset, dfind?, h2, h3]
    · by_cases h2 : k' = k
      · subst h2
        have h3 : ¬ a = k' := ha
        simp [dset, dfind?, ha, h3, ih]
      · simp [dset, dfind?, ha, h2, ih]

theorem dfind?_dUpdate (d e : List (String × Json)) (k : String)
    (he : (e.map Prod.fst).Nodup) :
    dfind? (dUpdate d e) k = optOr (dfind? e k) (dfind? d k) := by
  induction e generalizing d with
  | nil => simp [dUpdate, dfind?, optOr]
  | cons kv rest ih =>
    obtain ⟨k0, v0⟩ := kv
    simp only [List.map_cons, List.nodup_cons] at he
    have hstep : dUpdate d ((k0, v0) :: rest) = dUpdate (dset d k0 v0) rest := rfl
    rw [hstep, ih (dset d k0 v0) he.2]
    by_cases h : k = k0
    · subst h
      rw [dfind?_not_mem rest k he.1]
      simp [dfind?, dfind?_dset, optOr]
    · have h2 : ¬ k0 = k := fun heq => h heq.symm
      simp [dfind?, dfind?_dset, h, h2, optOr]

/-- C7 (amended): the spans renderer coalesces the attribute sources into one
flat mapping by merging the coerced `attributes.attributes`, then
`attributes.custom`, then `attributes.tags` (this order); on key collisions
the later-merged source wins, so a key present in both `attributes.tags` and
`attributes.custom` resolves to the `attributes.tags` value. -/
theorem attrs_coalesce_spec (attrs : List (String × Json)) (k : String)
    (h1 : ((coerceAttrsMap (dgetD attrs "attributes")).map Prod.fst).Nodup)
    (h2 : ((coerceAttrsMap (dgetD attrs "custom")).map Prod.fst).Nodup)
    (h3 : ((coerceAttrsMap (dgetD attrs "tags")).map Prod.fst).Nodup) :
    dfind? (coalesceNested attrs) k =
      optOr (dfind? (coerceAttrsMap (dgetD attrs "tags")) k)
        (optOr (dfind? (coerceAttrsMap (dgetD attrs "custom")) k)
          (dfind? (coerceAttrsMap (dgetD attrs "attributes")) k)) := by
  unfold coalesceNested
  rw [dfind?_dUpdate _ _ _ h3, dfind?_dUpdate _ _ _ h2, dfind?_dUpdate _ _ _ h1]
  have hnil : dfind? ([] : List (String × Json)) k = none := rfl
  rw [hnil]
  cases dfind? (coerceAttrsMap (dgetD attrs "attributes")) k <;>
    cases dfind? (coerceAttrsMap (dgetD attrs "custom")) k <;>
    cases dfind? (coerceAttrsMap (dgetD attrs "tags")) k <;> rfl

/-- Closed witness for `attrs_coalesce_spec`: the three sources in their three
encodings, with a colliding key. -/
theorem attrs_coalesce_spec_witness :
    dfind? (coalesceNested [("attributes", Json.obj [("env", Json.str "prd")]),
      ("custom", Json.arr [Json.obj [("key", Json.str "k"), ("value", Json.str "cv")]]),
      ("tags", Json.arr [Json.str "k:tv"])]) "k" = some (Json.str "tv") := by
  have h := attrs_coalesce_spec [("attributes", Json.obj [("env", Json.str "prd")]),
    ("custom", Json.arr [Json.obj [("key", Json.str "k"), ("value", Json.str "cv")]]),
    ("tags", Json.arr [Json.str "k:tv"])] "k"
    (by decide) (by decide) (by decide)
  rw [h]
  rfl

/-- C7 counterexample: a key present in both `attributes.tags` and
`attributes.custom` resolves to the `attributes.tags` value, not the
`attributes.custom` value as the claim states (the code merges `custom`
before `tags`). -/
theorem attrs_coalesce_counterexample :
    dfind? (coalesceNested [("tags", Json.obj [("k", Json.str "tv")]),
      ("custom", Json.obj [("k", Json.str "cv")])]) "k" = some (Json.str "tv")
    ∧ (some (Json.str "tv") : Option Json) ≠ some (Json.str "cv") :=
  ⟨rfl, by simp⟩

end DDCtl
